import Mathlib

/-
Verification of the Hangout.ai session core: a shallow embedding of
src/src/models.py, src/src/nemotron_client.py and src/src/orchestrator.py,
followed by theorems about the roster, plan-versioning, finalization and
projection behaviour of `HangoutOrchestrator.process_message`.

Modelling conventions:
- Python `str` values that may also be `None` are `Option String`
  (`none` is Python `None`); plain strings are `String`.
- Python `dict.get` over the JSON objects returned by the language oracle is
  modelled with `JStr`/`JList`, distinguishing a missing key, an explicit
  JSON `null`, and a present value, so that `.get(k, default)` is exact.
- Python `datetime` values are opaque `Nat` tick counts.
- Python sets are duplicate-free lists built by `addActive`.
- The network calls of `NemotronClient._make_request` are modelled as
  per-turn `Except Err _` oracle outcomes in `TurnOracle`: `.error`
  corresponds to a propagated `requests` transport exception, `.ok`
  carries the response content after the client-side JSON hunting that
  `extract_participant_info` / `generate_hangout_plan` perform, which is
  itself modelled by `ExtractContent` / `PlanContent`.
-/

namespace Hangout

/-- Error payload of a propagated adapter transport failure. -/
abbrev Err := String

/-- Value of a string-typed key in a JSON object returned by the oracle:
missing key, JSON null, or a string. -/
inductive JStr where
  | missing : JStr
  | null : JStr
  | str : String → JStr
deriving DecidableEq, Repr

/-- Value of a list-typed key in a JSON object returned by the oracle. -/
inductive JList where
  | missing : JList
  | null : JList
  | list : List String → JList
deriving DecidableEq, Repr

/-- Python `d.get(key, default)` for a string-typed key: a missing key gives
the default, `null` gives Python `None`, a string gives the string. -/
def JStr.getD : JStr → Option String → Option String
  | .missing, d => d
  | .null, _ => none
  | .str s, _ => some s

/-- Python `d.get(key, default)` for a list-typed key. -/
def JList.getD : JList → Option (List String) → Option (List String)
  | .missing, d => d
  | .null, _ => none
  | .list l, _ => some l

/-- Python truthiness of a possibly-`None` string. -/
def pyTruthyStr : Option String → Bool
  | none => false
  | some s => s ≠ ""

/-- Python truthiness of a possibly-`None` list of strings. -/
def pyTruthyList : Option (List String) → Bool
  | none => false
  | some l => l ≠ []

/-- Python truthiness of a `JStr` as tested by `d.get(key)` (default `None`). -/
def JStr.truthy : JStr → Bool
  | .str s => s ≠ ""
  | _ => false

/-- Lowercasing as used by Python `.lower()` on the ASCII texts involved. -/
def pyLower (s : String) : String := String.mk (s.data.map Char.toLower)

/-- Helper for substring search: does `hay` start with `needle`? -/
def startsWithL : List Char → List Char → Bool
  | _, [] => true
  | [], _ :: _ => false
  | h :: hs, n :: ns => (h = n) && startsWithL hs ns

/-- Python `needle in hay` substring containment on character lists. -/
def containsL : List Char → List Char → Bool
  | [], needle => needle.isEmpty
  | h :: hs, needle => startsWithL (h :: hs) needle || containsL hs needle

/-- Python `needle in hay` on strings. -/
def strIn (needle hay : String) : Bool := containsL hay.data needle.data

/-- Last `n` elements of a list, in order: Python `l[-n:]`. -/
def takeLast (n : Nat) (l : List α) : List α := l.drop (l.length - n)

/-- MessageType enum from models.py. -/
inductive MessageType where
  | USER_INPUT
  | AGENT_RESPONSE
  | SYSTEM_UPDATE
deriving DecidableEq, Repr

/-- String value of the enum, used by `Message.to_dict`. -/
def MessageType.value : MessageType → String
  | .USER_INPUT => "user_input"
  | .AGENT_RESPONSE => "agent_response"
  | .SYSTEM_UPDATE => "system_update"

/-- Message dataclass from models.py. -/
structure Message where
  content : String
  timestamp : Nat
  user_name : String
  message_type : MessageType
  user_identifier : String := ""
deriving DecidableEq, Repr

/-- Serialized form of a Message (`Message.to_dict`). -/
structure MessageDict where
  content : String
  timestamp : Nat
  user_name : String
  message_type : String
  user_identifier : String
deriving DecidableEq, Repr

/-- Message.to_dict from models.py. -/
def Message.to_dict (m : Message) : MessageDict :=
  { content := m.content
    timestamp := m.timestamp
    user_name := m.user_name
    message_type := m.message_type.value
    user_identifier := m.user_identifier }

/-- Participant dataclass from models.py. The extraction pipeline can store
Python `None` in address/food_preferences/constraints (a JSON `null` survives
`dict.get` with a default), hence the `Option` types. -/
structure Participant where
  name : String
  address : Option String := some ""
  food_preferences : Option (List String) := some []
  constraints : Option (List String) := some []
  timestamp : Nat := 0
  user_identifier : String := ""
deriving DecidableEq, Repr

/-- Serialized form of a Participant (`Participant.to_dict`). -/
structure ParticipantDict where
  name : String
  address : Option String
  food_preferences : Option (List String)
  constraints : Option (List String)
  timestamp : Nat
  user_identifier : String
deriving DecidableEq, Repr

/-- Participant.to_dict from models.py. -/
def Participant.to_dict (p : Participant) : ParticipantDict :=
  { name := p.name
    address := p.address
    food_preferences := p.food_preferences
    constraints := p.constraints
    timestamp := p.timestamp
    user_identifier := p.user_identifier }

/-- Python rendering of a possibly-`None` string inside an f-string. -/
def pyStr : Option String → String
  | none => "None"
  | some s => s

/-- Participant.get_summary from models.py (used only to build the oracle
request context in `_extract_participant_info`). -/
def Participant.get_summary (p : Participant) : String :=
  let prefs := if pyTruthyList p.food_preferences then
      String.intercalate ", " (p.food_preferences.getD []) else "no specific preferences"
  let constraints_str := if pyTruthyList p.constraints then
      " (" ++ String.intercalate ", " (p.constraints.getD []) ++ ")" else ""
  p.name ++ " from " ++ pyStr p.address ++ " - likes " ++ prefs ++ constraints_str

/-- HangoutPlan dataclass from models.py. -/
structure HangoutPlan where
  venue_recommendation : Option String
  reasoning_chain : Option String
  alternatives : Option (List String) := some []
  participant_analysis : Option String := some ""
  contributor_summary : Option String := some ""
  confidence_level : Option String := some "Low"
  version : Nat := 1
  generated_at : Nat := 0
deriving DecidableEq, Repr

/-- Serialized form of a HangoutPlan (`HangoutPlan.to_dict`). -/
structure PlanDictOut where
  venue_recommendation : Option String
  reasoning_chain : Option String
  alternatives : Option (List String)
  participant_analysis : Option String
  contributor_summary : Option String
  confidence_level : Option String
  version : Nat
  generated_at : Nat
deriving DecidableEq, Repr

/-- HangoutPlan.to_dict from models.py. -/
def HangoutPlan.to_dict (p : HangoutPlan) : PlanDictOut :=
  { venue_recommendation := p.venue_recommendation
    reasoning_chain := p.reasoning_chain
    alternatives := p.alternatives
    participant_analysis := p.participant_analysis
    contributor_summary := p.contributor_summary
    confidence_level := p.confidence_level
    version := p.version
    generated_at := p.generated_at }

/-- Set insertion for `Session.active_users` (Python `set.add`). -/
def addActive (l : List String) (u : String) : List String :=
  if u ∈ l then l else l ++ [u]

/-- Session dataclass from models.py. -/
structure Session where
  session_id : String := ""
  participants : List Participant := []
  conversation_history : List Message := []
  current_plan : Option HangoutPlan := none
  finalized_plan : Option HangoutPlan := none
  created_at : Nat := 0
  active_users : List String := []
  state : String := "collecting_info"
deriving DecidableEq, Repr

/-- Roster upsert on the participant list: replace the first participant with
the same case-insensitive name, else append; the Bool is `is_new`
(Session.add_participant from models.py). -/
def addParticipantList : List Participant → Participant → List Participant × Bool
  | [], p => ([p], true)
  | q :: rest, p =>
    if pyLower q.name = pyLower p.name then (p :: rest, false)
    else
      let r := addParticipantList rest p
      (q :: r.1, r.2)

/-- Session.add_participant from models.py: add or update a participant,
returning the updated session and True if new / False if updated. -/
def Session.add_participant (s : Session) (p : Participant) : Session × Bool :=
  let r := addParticipantList s.participants p
  ({ s with participants := r.1 }, r.2)

/-- Session.get_participant_count from models.py. -/
def Session.get_participant_count (s : Session) : Nat := s.participants.length

/-- Session.get_active_participants from models.py. -/
def Session.get_active_participants (s : Session) : List Participant :=
  s.participants.filter (fun p => p.user_identifier ∈ s.active_users)

/-- Session.add_message from models.py: append to history and, when the
message carries a non-empty user_identifier, record it as an active user. -/
def Session.add_message (s : Session) (m : Message) : Session :=
  { s with
    conversation_history := s.conversation_history ++ [m]
    active_users :=
      if m.user_identifier ≠ "" then addActive s.active_users m.user_identifier
      else s.active_users }

/-- Serialized form of a Session (`Session.to_dict`). -/
structure SessionDict where
  session_id : String
  participants : List ParticipantDict
  conversation_history : List MessageDict
  current_plan : Option PlanDictOut
  finalized_plan : Option PlanDictOut
  created_at : Nat
  active_users : List String
  state : String
  participant_count : Nat
deriving DecidableEq, Repr

/-- Session.to_dict from models.py: full serializable view; the history is
truncated to the last 20 messages. -/
def Session.to_dict (s : Session) : SessionDict :=
  { session_id := s.session_id
    participants := s.participants.map Participant.to_dict
    conversation_history := (takeLast 20 s.conversation_history).map Message.to_dict
    current_plan := s.current_plan.map HangoutPlan.to_dict
    finalized_plan := s.finalized_plan.map HangoutPlan.to_dict
    created_at := s.created_at
    active_users := s.active_users
    state := s.state
    participant_count := s.get_participant_count }

/-- Parsed JSON object from a successful extraction response
(nemotron_client.py, extract_participant_info). -/
structure ExtractDict where
  name : JStr := .missing
  address : JStr := .missing
  food_preferences : JList := .missing
  constraints : JList := .missing
deriving DecidableEq, Repr

/-- Python truthiness of the extraction dict (`not extracted` tests the empty
dict `\x7b\x7d`). -/
def ExtractDict.truthy (d : ExtractDict) : Bool :=
  !(d.name = .missing && d.address = .missing &&
    d.food_preferences = .missing && d.constraints = .missing)

/-- Response content of an extraction request after `_make_request` succeeded:
either no JSON object was found in the prose, or `json.loads` failed, or a
JSON object was parsed. -/
inductive ExtractContent where
  | noJson (content : String)
  | parseError (e : String)
  | parsed (d : ExtractDict)
deriving DecidableEq, Repr

/-- NemotronClient.extract_participant_info from nemotron_client.py, after the
transport call: both the missing-JSON branch and the JSONDecodeError/KeyError
branch degrade to the empty dict. -/
def extract_participant_info : ExtractContent → ExtractDict
  | .noJson _ => {}
  | .parseError _ => {}
  | .parsed d => d

/-- Parsed JSON object from a plan-generation response
(nemotron_client.py, generate_hangout_plan). -/
structure PlanDict where
  venue_recommendation : JStr := .missing
  reasoning_chain : JStr := .missing
  alternatives : JList := .missing
  participant_analysis : JStr := .missing
  contributor_summary : JStr := .missing
  confidence_level : JStr := .missing
deriving DecidableEq, Repr

/-- Response content of a plan-generation request after `_make_request`
succeeded. -/
inductive PlanContent where
  | noJson (content : String)
  | parseError (e : String)
  | parsed (d : PlanDict)
deriving DecidableEq, Repr

/-- NemotronClient.generate_hangout_plan from nemotron_client.py, after the
transport call: when no JSON object is found, or parsing raises, the client
substitutes a fallback dict whose venue_recommendation is a non-empty error
string; otherwise the parsed dict is returned as-is. -/
def generate_hangout_plan : PlanContent → PlanDict
  | .noJson content =>
    { venue_recommendation := .str "Unable to generate recommendation"
      reasoning_chain := .str content
      alternatives := .list []
      confidence_level := .str "Low" }
  | .parseError e =>
    { venue_recommendation := .str "Error generating plan"
      reasoning_chain := .str e
      alternatives := .list []
      confidence_level := .str "Low" }
  | .parsed d => d

/-- Outcomes of the external calls available to one `process_message` turn.
Each `Except` is the result of the corresponding `NemotronClient` call:
`.error` models a propagated transport exception of `_make_request`. The
geography service never raises (maps_client.py swallows its own errors). -/
structure TurnOracle where
  now : Nat := 0
  extract : Except Err ExtractContent := .ok (.noJson "")
  reply : Except Err String := .ok ""
  plan : Except Err PlanContent := .ok (.noJson "")
  mapsAvailable : Bool := false
  geocode : String → String := fun a => a

/-- Fixed phrase set from HangoutOrchestrator.__init__ (orchestrator.py). -/
def finalization_triggers : List String :=
  ["finalize", "make a plan", "make plan", "let\x27s decide",
   "create plan", "generate plan", "what\x27s the plan", "decide"]

/-- HangoutOrchestrator._should_finalize_plan: substring match of any trigger
against the lowercased message. -/
def should_finalize_plan (message : String) : Bool :=
  finalization_triggers.any (fun trigger => strIn trigger (pyLower message))

/-- HangoutOrchestrator._extract_participant_info from orchestrator.py, given
the oracle outcome for this turn. The existing-participant summary only
shapes the oracle request, which the oracle outcome already reflects. On a
parsed result without a truthy name, no participant is extracted; otherwise
the Participant is built with `dict.get` defaults, user_identifier set to the
display name passed in, and the address geocoded when present and the maps
client is available. -/
def orch_extract (o : TurnOracle) (user_name : String) :
    Except Err (Option Participant) :=
  match o.extract with
  | .error e => .error e
  | .ok content =>
    let extracted := extract_participant_info content
    if !extracted.truthy || !extracted.name.truthy then .ok none
    else
      let p : Participant :=
        { name := match extracted.name with | .str s => s | _ => user_name
          address := extracted.address.getD (some "")
          food_preferences := extracted.food_preferences.getD (some [])
          constraints := extracted.constraints.getD (some [])
          timestamp := o.now
          user_identifier := user_name }
      let p :=
        if pyTruthyStr p.address && o.mapsAvailable then
          let geocoded := o.geocode (pyStr p.address)
          if geocoded ≠ "" then { p with address := some geocoded } else p
        else p
      .ok (some p)

/-- Version for a newly generated plan (orchestrator.py lines 94-97): 1 when
there is no current plan, else one more than the current plan. -/
def nextVersion : Option HangoutPlan → Nat
  | some cp => cp.version + 1
  | none => 1

/-- HangoutOrchestrator._generate_plan from orchestrator.py: returns the new
plan option paired with whether the plan-generation adapter was invoked. -/
def orch_generate_plan (s : Session) (o : TurnOracle) :
    Except Err (Option HangoutPlan) × Bool :=
  if s.participants.length < 2 then (.ok none, false)
  else
    match o.plan with
    | .error e => (.error e, true)
    | .ok content =>
      let plan_data := generate_hangout_plan content
      if !plan_data.venue_recommendation.truthy then (.ok none, true)
      else
        let version : Nat := nextVersion s.current_plan
        (.ok (some
          { venue_recommendation := plan_data.venue_recommendation.getD (some "")
            reasoning_chain := plan_data.reasoning_chain.getD (some "")
            alternatives := plan_data.alternatives.getD (some [])
            participant_analysis := plan_data.participant_analysis.getD (some "")
            contributor_summary := plan_data.contributor_summary.getD (some "")
            confidence_level := plan_data.confidence_level.getD (some "Low")
            version := version
            generated_at := o.now }), true)

/-- Confirmation clause appended to the reply when extraction succeeded
(process_message, step after the conversational reply). -/
def confirmClause (response : String) (p : Participant) (is_new : Bool) : String :=
  let r := response ++
    (if is_new then "\n\nGot it! Added **" ++ p.name ++ "** "
     else "\n\nUpdated info for **" ++ p.name ++ "** ")
  let r := if pyTruthyStr p.address then r ++ "from " ++ pyStr p.address else r
  let r := if pyTruthyList p.food_preferences then
      r ++ " who likes " ++ String.intercalate ", " (p.food_preferences.getD []) else r
  let r := if pyTruthyList p.constraints then
      r ++ " (" ++ String.intercalate ", " (p.constraints.getD []) ++ ")" else r
  r ++ "."

/-- Plan-update notification appended to the reply when a new plan was
generated, with the confidence-dependent tail. -/
def planNotification (response : String) (np : HangoutPlan) (roster : List Participant) :
    String :=
  let r := response ++ "\n\n🎯 **Plan Updated (v" ++ toString np.version ++
    ")**: Now optimizing for " ++ toString roster.length ++ " people (" ++
    String.intercalate ", " (roster.map Participant.name) ++ ")!"
  if np.confidence_level = some "High" then r ++ " We have a great recommendation ready!"
  else if np.confidence_level = some "Medium" then r ++ " Good options available."
  else r ++ " Still gathering info for best recommendations."

/-- Finalization step of process_message: when the trigger fired and a current
plan exists, copy it into finalized_plan and set the state; when the trigger
fired without a current plan, replace the whole reply. -/
def finalizeStep (should_finalize : Bool) (s : Session) (response : String) :
    Session × String :=
  if should_finalize && s.current_plan.isSome then
    ({ s with finalized_plan := s.current_plan, state := "finalized" },
     response ++ "\n\n✅ **Plan Finalized!** The current recommendation has been locked in.")
  else if should_finalize then
    (s, "We need at least 2 participants before I can create a plan. Who else is joining?")
  else (s, response)

/-- Result of one `process_message` call: the session as left behind (partial
on a propagated transport error), the returned pair or the propagated error,
and whether the plan-generation adapter was invoked this turn. -/
structure ProcOut where
  session : Session
  result : Except Err (String × Option PlanDictOut)
  planGenInvoked : Bool
deriving Repr

/-- USER_INPUT Message appended in step 1 of process_message. -/
def userMessageOf (o : TurnOracle) (user_message user_name user_id : String) : Message :=
  { content := user_message, timestamp := o.now, user_name := user_name
    message_type := .USER_INPUT, user_identifier := user_id }

/-- HangoutOrchestrator.process_message from orchestrator.py, with the three
language-oracle calls resolved through `o`. A transport `.error` at any call
aborts the turn, leaving the session exactly as mutated so far. -/
def process_message (s : Session) (o : TurnOracle)
    (user_message user_name user_id : String) : ProcOut :=
  let s1 := s.add_message (userMessageOf o user_message user_name user_id)
  let should_finalize := should_finalize_plan user_message
  match orch_extract o user_name with
  | .error e => ⟨s1, .error e, false⟩
  | .ok participantOpt =>
    let upserted :=
      match participantOpt with
      | some p => s1.add_participant p
      | none => (s1, false)
    let s2 := upserted.1
    let is_new := upserted.2
    match o.reply with
    | .error e => ⟨s2, .error e, false⟩
    | .ok response0 =>
      let response1 :=
        match participantOpt with
        | some p => confirmClause response0 p is_new
        | none => response0
      let planStep :=
        if participantOpt.isSome && decide (2 ≤ s2.participants.length) then
          orch_generate_plan s2 o
        else (.ok none, false)
      match planStep with
      | (.error e, inv) => ⟨s2, .error e, inv⟩
      | (.ok newPlanOpt, inv) =>
        let s3 :=
          match newPlanOpt with
          | some np => { s2 with current_plan := some np }
          | none => s2
        let plan_update := newPlanOpt.map HangoutPlan.to_dict
        let response2 :=
          match newPlanOpt with
          | some np => planNotification response1 np s2.participants
          | none => response1
        let fin := finalizeStep should_finalize s3 response2
        let agent_msg : Message :=
          { content := fin.2, timestamp := o.now, user_name := "Hangout AI"
            message_type := .AGENT_RESPONSE, user_identifier := "system" }
        let s5 := fin.1.add_message agent_msg
        ⟨s5, .ok (fin.2, plan_update), inv⟩

/-- HangoutOrchestrator.get_session_state from orchestrator.py: a read-only
projection, returned together with the session it leaves behind (the method
performs no assignment, so the session passes through unchanged). -/
def get_session_state (s : Session) : SessionDict × Session := (s.to_dict, s)

/-- Arguments and oracle outcomes of one turn. -/
structure TurnInput where
  oracle : TurnOracle
  user_message : String
  user_name : String
  user_id : String

/-- Process a sequence of turns against a session, keeping whatever session
each turn (completed or aborted) left behind. -/
def runTurns (s : Session) : List TurnInput → Session
  | [] => s
  | t :: ts => runTurns (process_message s t.oracle t.user_message t.user_name t.user_id).session ts

/-- Whether a turn produced (and installed) a new plan: exactly the turns that
return a non-absent plan_update. -/
def planProduced (out : ProcOut) : Bool :=
  match out.result with
  | .ok (_, some _) => true
  | _ => false

/-- Process a sequence of turns, also counting the turns that produced a new
plan. -/
def runTurnsCount (s : Session) : List TurnInput → Session × Nat
  | [] => (s, 0)
  | t :: ts =>
    let out := process_message s t.oracle t.user_message t.user_name t.user_id
    let rest := runTurnsCount out.session ts
    (rest.1, (if planProduced out then 1 else 0) + rest.2)

/-! Concrete sessions, oracle outcomes and turns used by the counterexamples
and witnesses below. -/

/-- Extraction result naming Alice with an address and a preference. -/
def exAlice : ExtractDict :=
  { name := .str "Alice", address := .str "Brooklyn"
    food_preferences := .list ["sushi"], constraints := .list [] }

/-- Extraction result naming Bob. -/
def exBob : ExtractDict :=
  { name := .str "Bob", address := .str "Queens"
    food_preferences := .list ["pizza"], constraints := .list [] }

/-- Extraction result naming Carol. -/
def exCarol : ExtractDict :=
  { name := .str "Carol", address := .str "Bronx"
    food_preferences := .list [], constraints := .list ["vegan"] }

/-- Well-formed plan dict with the given venue. -/
def planDictV (v : String) : PlanDict :=
  { venue_recommendation := .str v, reasoning_chain := .str "r"
    alternatives := .list [], confidence_level := .str "High" }

/-- Oracle turn: extraction yields Alice, all calls succeed. -/
def oracleAlice : TurnOracle :=
  { extract := .ok (.parsed exAlice), reply := .ok "hi"
    plan := .ok (.parsed (planDictV "V0")) }

/-- Oracle turn: extraction yields Bob, plan generation yields venue V1. -/
def oracleBob : TurnOracle :=
  { extract := .ok (.parsed exBob), reply := .ok "hi"
    plan := .ok (.parsed (planDictV "V1")) }

/-- Oracle turn: extraction yields Carol, plan generation yields venue V2. -/
def oracleCarol : TurnOracle :=
  { extract := .ok (.parsed exCarol), reply := .ok "hi"
    plan := .ok (.parsed (planDictV "V2")) }

/-- Fresh session. -/
def sessionStart : Session := { session_id := "sess" }

/-- Turn: Alice introduces herself. -/
def turnAlice : TurnInput :=
  ⟨oracleAlice, "I am Alice from Brooklyn, I like sushi", "Alice", "id-alice"⟩

/-- Turn: Bob introduces himself and asks to finalize. -/
def turnBobFinalize : TurnInput :=
  ⟨oracleBob, "Bob here from Queens. finalize", "Bob", "id-bob"⟩

/-- Turn: Carol introduces herself and again asks to finalize. -/
def turnCarolFinalize : TurnInput :=
  ⟨oracleCarol, "Carol joining, vegan. finalize please", "Carol", "id-carol"⟩

/-- Oracle turn whose conversational-reply call raises a transport error after
a successful extraction of Alice. -/
def oracleReplyFail : TurnOracle :=
  { extract := .ok (.parsed exAlice), reply := .error "boom" }

/-- Session already holding two participants and no plan. -/
def sessionTwo : Session :=
  { participants := [{ name := "Alice", user_identifier := "Alice" },
                     { name := "Bob", user_identifier := "Bob" }] }

/-- Current plan at version 1. -/
def planOne : HangoutPlan :=
  { venue_recommendation := some "V1", reasoning_chain := some "r", version := 1 }

/-- Session with two participants and a current plan at version 1. -/
def sessionTwoPlanned : Session := { sessionTwo with current_plan := some planOne }

/-- Oracle turn whose plan-generation response contains no JSON object. -/
def oracleBadPlan : TurnOracle :=
  { extract := .ok (.parsed exCarol), reply := .ok "hi"
    plan := .ok (.noJson "no json here") }

/-- Oracle turn whose plan-generation response parses to a JSON object with no
venue_recommendation. -/
def oracleEmptyParsedPlan : TurnOracle :=
  { extract := .ok (.parsed exCarol), reply := .ok "hi", plan := .ok (.parsed {}) }

/-- Roster well-formedness: pairwise distinct case-insensitive names. -/
def rosterKeysOK (l : List Participant) : Prop :=
  l.Pairwise (fun a b => pyLower a.name ≠ pyLower b.name)

/-- Version of an optional plan, 0 when absent. -/
def versionOf : Option HangoutPlan → Nat
  | none => 0
  | some p => p.version

/-! Projection lemmas for the session helpers. -/

theorem add_message_participants (s : Session) (m : Message) :
    (s.add_message m).participants = s.participants := rfl

theorem add_message_current_plan (s : Session) (m : Message) :
    (s.add_message m).current_plan = s.current_plan := rfl

theorem add_message_finalized_plan (s : Session) (m : Message) :
    (s.add_message m).finalized_plan = s.finalized_plan := rfl

theorem add_message_state (s : Session) (m : Message) :
    (s.add_message m).state = s.state := rfl

theorem add_message_history (s : Session) (m : Message) :
    (s.add_message m).conversation_history = s.conversation_history ++ [m] := rfl

theorem add_participant_fst_current_plan (s : Session) (p : Participant) :
    (s.add_participant p).1.current_plan = s.current_plan := rfl

theorem add_participant_fst_finalized_plan (s : Session) (p : Participant) :
    (s.add_participant p).1.finalized_plan = s.finalized_plan := rfl

theorem add_participant_fst_state (s : Session) (p : Participant) :
    (s.add_participant p).1.state = s.state := rfl

theorem add_participant_fst_history (s : Session) (p : Participant) :
    (s.add_participant p).1.conversation_history = s.conversation_history := rfl

theorem add_participant_fst_active (s : Session) (p : Participant) :
    (s.add_participant p).1.active_users = s.active_users := rfl

theorem add_participant_fst_participants (s : Session) (p : Participant) :
    (s.add_participant p).1.participants = (addParticipantList s.participants p).1 := rfl

theorem finalizeStep_fst_participants (b : Bool) (s : Session) (r : String) :
    (finalizeStep b s r).1.participants = s.participants := by
  unfold finalizeStep
  split
  · rfl
  · split <;> rfl

theorem finalizeStep_fst_current_plan (b : Bool) (s : Session) (r : String) :
    (finalizeStep b s r).1.current_plan = s.current_plan := by
  unfold finalizeStep
  split
  · rfl
  · split <;> rfl

theorem finalizeStep_fst_history (b : Bool) (s : Session) (r : String) :
    (finalizeStep b s r).1.conversation_history = s.conversation_history := by
  unfold finalizeStep
  split
  · rfl
  · split <;> rfl

theorem finalizeStep_fst_active (b : Bool) (s : Session) (r : String) :
    (finalizeStep b s r).1.active_users = s.active_users := by
  unfold finalizeStep
  split
  · rfl
  · split <;> rfl

theorem finalizeStep_fst_finalized_plan (b : Bool) (s : Session) (r : String) :
    (finalizeStep b s r).1.finalized_plan =
      if b && s.current_plan.isSome then s.current_plan else s.finalized_plan := by
  unfold finalizeStep
  split
  · next h => simp [h]
  · next h =>
    split <;> simp [h]

theorem mem_addActive_self (l : List String) (u : String) : u ∈ addActive l u := by
  unfold addActive
  split
  · assumption
  · simp

/-! Lemmas about the roster upsert. -/

theorem apl_self_mem (l : List Participant) (p : Participant) :
    p ∈ (addParticipantList l p).1 := by
  induction l with
  | nil => simp [addParticipantList]
  | cons q rest ih =>
    unfold addParticipantList
    split
    · simp
    · simpa using Or.inr ih

theorem apl_mem (l : List Participant) (p : Participant) :
    ∀ x ∈ (addParticipantList l p).1, x ∈ l ∨ x = p := by
  induction l with
  | nil =>
    intro x hx
    simp [addParticipantList] at hx
    exact Or.inr hx
  | cons q rest ih =>
    intro x hx
    unfold addParticipantList at hx
    split at hx
    · rcases List.mem_cons.mp hx with h | h
      · exact Or.inr h
      · exact Or.inl (List.mem_cons_of_mem q h)
    · rcases List.mem_cons.mp hx with h | h
      · exact Or.inl (h ▸ List.mem_cons_self q rest)
      · rcases ih x h with h' | h'
        · exact Or.inl (List.mem_cons_of_mem q h')
        · exact Or.inr h'

theorem apl_keys (l : List Participant) (p : Participant) :
    ∀ q ∈ l, ∃ x ∈ (addParticipantList l p).1, pyLower x.name = pyLower q.name := by
  induction l with
  | nil => intro q hq; cases hq
  | cons h rest ih =>
    intro q hq
    unfold addParticipantList
    split
    · next heq =>
      rcases List.mem_cons.mp hq with h' | h'
      · exact ⟨p, List.mem_cons_self _ _, h' ▸ heq.symm⟩
      · exact ⟨q, List.mem_cons_of_mem _ h', rfl⟩
    · rcases List.mem_cons.mp hq with h' | h'
      · exact ⟨h, by simp, by rw [h']⟩
      · rcases ih q h' with ⟨x, hx, hkey⟩
        exact ⟨x, by simpa using Or.inr hx, hkey⟩

theorem apl_pairwise (l : List Participant) (p : Participant)
    (h : l.Pairwise (fun a b => pyLower a.name ≠ pyLower b.name)) :
    (addParticipantList l p).1.Pairwise (fun a b => pyLower a.name ≠ pyLower b.name) := by
  induction l with
  | nil => simp [addParticipantList]
  | cons q rest ih =>
    rcases List.pairwise_cons.mp h with ⟨hq, hrest⟩
    unfold addParticipantList
    split
    · next heq =>
      exact List.pairwise_cons.mpr ⟨fun b hb => heq ▸ hq b hb, hrest⟩
    · next hne =>
      refine List.pairwise_cons.mpr ⟨?_, ih hrest⟩
      intro b hb
      rcases apl_mem rest p b hb with h' | h'
      · exact hq b h'
      · exact h' ▸ hne

theorem apl_unique (l : List Participant) (p : Participant)
    (h : l.Pairwise (fun a b => pyLower a.name ≠ pyLower b.name)) :
    ∀ x ∈ (addParticipantList l p).1, pyLower x.name = pyLower p.name → x = p := by
  induction l with
  | nil =>
    intro x hx _
    simpa [addParticipantList] using hx
  | cons q rest ih =>
    rcases List.pairwise_cons.mp h with ⟨hq, hrest⟩
    intro x hx hkey
    unfold addParticipantList at hx
    split at hx
    · next heq =>
      rcases List.mem_cons.mp hx with h' | h'
      · exact h'
      · exact absurd (hkey.trans heq.symm).symm (hq x h')
    · next hne =>
      rcases List.mem_cons.mp hx with h' | h'
      · exact absurd (h' ▸ hkey) hne
      · exact ih hrest x h' hkey

theorem apl_length_ge (l : List Participant) (p : Participant) :
    l.length ≤ (addParticipantList l p).1.length := by
  induction l with
  | nil => simp [addParticipantList]
  | cons q rest ih =>
    unfold addParticipantList
    split
    · simp
    · simpa using ih

/-! Characterization lemmas about `process_message`. -/

theorem process_message_participants (s : Session) (o : TurnOracle) (m un uid : String) :
    (process_message s o m un uid).session.participants = s.participants ∨
    ∃ p, orch_extract o un = .ok (some p) ∧
      (process_message s o m un uid).session.participants =
        (addParticipantList s.participants p).1 := by
  unfold process_message
  cases hx : orch_extract o un with
  | error e => left; rfl
  | ok popt =>
    cases popt with
    | none =>
      cases hr : o.reply with
      | error e => left; rfl
      | ok r0 =>
        left
        simp [add_message_participants, finalizeStep_fst_participants]
    | some p =>
      cases hr : o.reply with
      | error e => right; exact ⟨p, rfl, rfl⟩
      | ok r0 =>
        right
        refine ⟨p, rfl, ?_⟩
        dsimp only
        split
        · rfl
        · next npOpt inv _ =>
          cases npOpt with
          | none => simp [add_message_participants, finalizeStep_fst_participants]; rfl
          | some np => simp [add_message_participants, finalizeStep_fst_participants]; rfl

theorem nextVersion_eq (c : Option HangoutPlan) : nextVersion c = versionOf c + 1 := by
  cases c <;> simp [nextVersion, versionOf]

theorem orch_generate_plan_version (s : Session) (o : TurnOracle)
    (np : HangoutPlan) (inv : Bool)
    (h : orch_generate_plan s o = (.ok (some np), inv)) :
    np.version = versionOf s.current_plan + 1 := by
  unfold orch_generate_plan at h
  split at h
  · simp at h
  · cases hpl : o.plan with
    | error e =>
      rw [hpl] at h
      simp at h
    | ok content =>
      rw [hpl] at h
      dsimp only at h
      by_cases ht : (!(generate_hangout_plan content).venue_recommendation.truthy) = true
      · rw [if_pos ht] at h
        simp at h
      · rw [if_neg ht] at h
        simp only [Prod.mk.injEq, Except.ok.injEq, Option.some.injEq] at h
        obtain ⟨h1, _⟩ := h
        rw [← h1]
        simp [nextVersion_eq]

theorem process_message_plan_step (s : Session) (o : TurnOracle) (m un uid : String) :
    (planProduced (process_message s o m un uid) = false →
      (process_message s o m un uid).session.current_plan = s.current_plan) ∧
    (planProduced (process_message s o m un uid) = true →
      ∃ np, (process_message s o m un uid).session.current_plan = some np ∧
        np.version = versionOf s.current_plan + 1) := by
  unfold process_message
  cases hx : orch_extract o un with
  | error e => exact ⟨fun _ => rfl, fun h => by simp [planProduced] at h⟩
  | ok popt =>
    cases popt with
    | none =>
      cases hr : o.reply with
      | error e => exact ⟨fun _ => rfl, fun h => by simp [planProduced] at h⟩
      | ok r0 =>
        constructor
        · intro _
          simp [add_message_current_plan, finalizeStep_fst_current_plan]
        · intro h
          simp [planProduced] at h
    | some p =>
      cases hr : o.reply with
      | error e => exact ⟨fun _ => rfl, fun h => by simp [planProduced] at h⟩
      | ok r0 =>
        dsimp only
        split
        · next e inv heq =>
          exact ⟨fun _ => rfl, fun h => by simp [planProduced] at h⟩
        · next npOpt inv heq =>
          cases npOpt with
          | none =>
            constructor
            · intro _
              simp [add_message_current_plan, add_participant_fst_current_plan,
                finalizeStep_fst_current_plan]
            · intro h
              simp [planProduced] at h
          | some np =>
            constructor
            · intro h
              simp [planProduced] at h
            · intro _
              refine ⟨np, ?_, ?_⟩
              · simp [add_message_current_plan, add_participant_fst_current_plan,
                  finalizeStep_fst_current_plan]
              · split at heq
                · have := orch_generate_plan_version _ o np inv heq
                  simpa using this
                · simp at heq

theorem process_message_len_mono (s : Session) (o : TurnOracle) (m un uid : String) :
    s.participants.length ≤ (process_message s o m un uid).session.participants.length := by
  rcases process_message_participants s o m un uid with h | ⟨p, _, h⟩
  · rw [h]
  · rw [h]; exact apl_length_ge s.participants p

theorem runTurns_len_mono (ts : List TurnInput) (s : Session) :
    s.participants.length ≤ (runTurns s ts).participants.length := by
  induction ts generalizing s with
  | nil => exact le_refl _
  | cons t rest ih =>
    exact le_trans (process_message_len_mono s t.oracle t.user_message t.user_name t.user_id)
      (ih _)

theorem runTurnsCount_version (ts : List TurnInput) (s : Session) :
    versionOf (runTurnsCount s ts).1.current_plan =
      versionOf s.current_plan + (runTurnsCount s ts).2 := by
  induction ts generalizing s with
  | nil => simp [runTurnsCount]
  | cons t rest ih =>
    have hstep := process_message_plan_step s t.oracle t.user_message t.user_name t.user_id
    cases hp : planProduced (process_message s t.oracle t.user_message t.user_name t.user_id) with
    | false =>
      have hcur := hstep.1 hp
      simp only [runTurnsCount]
      rw [hp]
      simp only [Bool.false_eq_true, if_false]
      rw [ih, hcur]
      omega
    | true =>
      rcases hstep.2 hp with ⟨np, hcur, hver⟩
      simp only [runTurnsCount]
      rw [hp]
      simp only [if_true]
      rw [ih, hcur]
      simp only [versionOf, hver]
      omega

/-! Substring search agrees with the existence of a decomposition. -/

theorem startsWithL_iff (needle hay : List Char) :
    startsWithL hay needle = true ↔ ∃ rest, hay = needle ++ rest := by
  induction needle generalizing hay with
  | nil => simp [startsWithL]
  | cons n ns ih =>
    cases hay with
    | nil => simp [startsWithL]
    | cons h hs =>
      simp only [startsWithL, Bool.and_eq_true, decide_eq_true_eq, ih,
        List.cons_append, List.cons.injEq]
      constructor
      · rintro ⟨h1, rest, h2⟩
        exact ⟨rest, h1, h2⟩
      · rintro ⟨rest, h1, h2⟩
        exact ⟨h1, rest, h2⟩

theorem containsL_iff (hay needle : List Char) :
    containsL hay needle = true ↔ ∃ pre post, hay = pre ++ needle ++ post := by
  induction hay with
  | nil =>
    simp only [containsL, List.isEmpty_iff]
    constructor
    · intro h
      exact ⟨[], [], by simp [h]⟩
    · rintro ⟨pre, post, h⟩
      rcases List.append_eq_nil.mp h.symm with ⟨h1, h2⟩
      rcases List.append_eq_nil.mp h1 with ⟨_, h3⟩
      exact h3
  | cons c cs ih =>
    simp only [containsL, Bool.or_eq_true, startsWithL_iff, ih]
    constructor
    · rintro (⟨rest, h⟩ | ⟨pre, post, h⟩)
      · exact ⟨[], rest, by simp [h]⟩
      · exact ⟨c :: pre, post, by simp [h]⟩
    · rintro ⟨pre, post, h⟩
      cases pre with
      | nil =>
        exact Or.inl ⟨post, by simpa using h⟩
      | cons a asr =>
        rcases List.cons.injEq .. ▸ h with h'
        simp only [List.cons_append, List.cons.injEq] at h'
        exact Or.inr ⟨asr, post, h'.2⟩

/-! Truncation helper facts. -/

theorem takeLast_length (n : Nat) (l : List α) :
    (takeLast n l).length = min n l.length := by
  simp only [takeLast, List.length_drop]
  omega

theorem takeLast_suffix (n : Nat) (l : List α) :
    l.take (l.length - n) ++ takeLast n l = l := by
  simp [takeLast]

/-! Roster invariant preservation. -/

theorem process_message_rosterOK (s : Session) (o : TurnOracle) (m un uid : String)
    (h : rosterKeysOK s.participants) :
    rosterKeysOK (process_message s o m un uid).session.participants := by
  rcases process_message_participants s o m un uid with hp | ⟨p, _, hp⟩
  · rw [rosterKeysOK, hp]
    exact h
  · rw [rosterKeysOK, hp]
    exact apl_pairwise s.participants p h

theorem runTurns_rosterOK (ts : List TurnInput) (s : Session)
    (h : rosterKeysOK s.participants) : rosterKeysOK (runTurns s ts).participants := by
  induction ts generalizing s with
  | nil => exact h
  | cons t rest ih =>
    exact ih _ (process_message_rosterOK s t.oracle t.user_message t.user_name t.user_id h)

theorem process_message_participants_some (s : Session) (o : TurnOracle)
    (m un uid : String) (p : Participant)
    (hx : orch_extract o un = .ok (some p)) :
    (process_message s o m un uid).session.participants =
      (addParticipantList s.participants p).1 := by
  unfold process_message
  rw [hx]
  cases hr : o.reply with
  | error e => rfl
  | ok r0 =>
    dsimp only
    split
    · rfl
    · next npOpt inv _ =>
      cases npOpt with
      | none => simp [add_message_participants, finalizeStep_fst_participants]; rfl
      | some np => simp [add_message_participants, finalizeStep_fst_participants]; rfl

/-! Below the two-participant threshold the plan generator is never invoked. -/

theorem process_message_small (s : Session) (o : TurnOracle) (m un uid : String)
    (h : (process_message s o m un uid).session.participants.length < 2) :
    (process_message s o m un uid).planGenInvoked = false ∧
    (process_message s o m un uid).session.current_plan = s.current_plan := by
  unfold process_message
  cases hx : orch_extract o un with
  | error e => exact ⟨rfl, rfl⟩
  | ok popt =>
    cases popt with
    | none =>
      cases hr : o.reply with
      | error e => exact ⟨rfl, rfl⟩
      | ok r0 =>
        constructor
        · rfl
        · simp [add_message_current_plan, finalizeStep_fst_current_plan]
    | some p =>
      have hppart := process_message_participants_some s o m un uid p hx
      have hlen : ((s.add_message (userMessageOf o m un uid)).add_participant p).1.participants.length < 2 := by
        have h2 : (addParticipantList s.participants p).1.length < 2 := hppart ▸ h
        exact h2
      cases hr : o.reply with
      | error e => exact ⟨rfl, rfl⟩
      | ok r0 =>
        have hg : ((some p : Option Participant).isSome &&
            decide (2 ≤ ((s.add_message (userMessageOf o m un uid)).add_participant p).1.participants.length)) = false := by
          have : ¬ (2 ≤ ((s.add_message (userMessageOf o m un uid)).add_participant p).1.participants.length) := by
            omega
          simp [this]
        dsimp only
        rw [hg]
        constructor
        · rfl
        · simp [add_message_current_plan, add_participant_fst_current_plan,
            finalizeStep_fst_current_plan]

theorem runTurns_below (ts : List TurnInput) (s : Session)
    (hcur : s.current_plan = none)
    (hlen : (runTurns s ts).participants.length < 2) :
    (runTurns s ts).current_plan = none := by
  induction ts generalizing s with
  | nil => exact hcur
  | cons t rest ih =>
    have hrun : runTurns s (t :: rest) =
        runTurns (process_message s t.oracle t.user_message t.user_name t.user_id).session rest := rfl
    rw [hrun] at hlen
    have hmid : (process_message s t.oracle t.user_message t.user_name t.user_id).session.participants.length < 2 :=
      lt_of_le_of_lt (runTurns_len_mono rest _) hlen
    have hsmall := process_message_small s t.oracle t.user_message t.user_name t.user_id hmid
    rw [hrun]
    exact ih _ (hsmall.2.trans hcur) hlen

theorem add_message_active_mem (s : Session) (msg : Message)
    (h : msg.user_identifier ≠ "") :
    msg.user_identifier ∈ (s.add_message msg).active_users := by
  unfold Session.add_message
  dsimp only
  rw [if_pos h]
  exact mem_addActive_self _ _

/-! Claim theorems. -/

/-- C1, counterexample: after Alice and Bob joined and Bob finalized,
`finalized_plan` is set; the subsequent message from Carol, which again
contains the trigger word "finalize" after the roster change regenerated the
plan, overwrites `finalized_plan` with the new current plan — contradicting
the claim that a set `finalized_plan` is never changed by a later message. -/
theorem hangout_C1_counterexample :
    (runTurns sessionStart [turnAlice, turnBobFinalize]).finalized_plan.isSome = true ∧
    (process_message (runTurns sessionStart [turnAlice, turnBobFinalize])
        oracleCarol "Carol joining, vegan. finalize please" "Carol" "id-carol").session.finalized_plan ≠
      (runTurns sessionStart [turnAlice, turnBobFinalize]).finalized_plan := by
  exact ⟨rfl, by decide⟩

/-- C1, amended: for every processed message, `finalized_plan` is either left
exactly unchanged, or — when the message contains a finalization trigger and a
current plan exists at the finalize step — it is overwritten with (and then
equals) the session's current plan, and in particular is set. Hence it is
never cleared once set, but it is not immutable: a later finalization trigger
re-copies the then-current plan over it. -/
theorem hangout_C1_amended (s : Session) (o : TurnOracle) (m un uid : String) :
    (process_message s o m un uid).session.finalized_plan = s.finalized_plan ∨
    (should_finalize_plan m = true ∧
      (process_message s o m un uid).session.finalized_plan.isSome = true ∧
      (process_message s o m un uid).session.finalized_plan =
        (process_message s o m un uid).session.current_plan) := by
  unfold process_message
  cases hx : orch_extract o un with
  | error e => left; rfl
  | ok popt =>
    cases popt with
    | none =>
      cases hr : o.reply with
      | error e => left; rfl
      | ok r0 =>
        dsimp only
        split
        · left; rfl
        · next npOpt inv _ =>
          cases npOpt with
          | none =>
            simp only [add_message_finalized_plan, finalizeStep_fst_finalized_plan,
              add_message_current_plan, finalizeStep_fst_current_plan]
            split
            · next hcond =>
              simp only [Bool.and_eq_true] at hcond
              exact Or.inr ⟨hcond.1, hcond.2, rfl⟩
            · left; rfl
          | some np =>
            simp only [add_message_finalized_plan, finalizeStep_fst_finalized_plan,
              add_message_current_plan, finalizeStep_fst_current_plan]
            split
            · next hcond =>
              simp only [Bool.and_eq_true] at hcond
              exact Or.inr ⟨hcond.1, hcond.2, rfl⟩
            · left; rfl
    | some p =>
      cases hr : o.reply with
      | error e => left; rfl
      | ok r0 =>
        dsimp only
        split
        · left; rfl
        · next npOpt inv _ =>
          cases npOpt with
          | none =>
            simp only [add_message_finalized_plan, finalizeStep_fst_finalized_plan,
              add_message_current_plan, finalizeStep_fst_current_plan]
            split
            · next hcond =>
              simp only [Bool.and_eq_true] at hcond
              exact Or.inr ⟨hcond.1, hcond.2, rfl⟩
            · left; rfl
          | some np =>
            simp only [add_message_finalized_plan, finalizeStep_fst_finalized_plan,
              add_message_current_plan, finalizeStep_fst_current_plan]
            split
            · next hcond =>
              simp only [Bool.and_eq_true] at hcond
              exact Or.inr ⟨hcond.1, hcond.2, rfl⟩
            · left; rfl

/-- C2, counterexample: when the conversational-reply call raises a transport
error after a successful extraction, the error propagates (the result is the
error), yet the roster has grown from 0 to 1 participants — the session is
NOT left as it was before the call except for the step-1 history append. -/
theorem hangout_C2_counterexample :
    (process_message sessionStart oracleReplyFail "I am Alice" "Alice" "id-alice").result =
      .error "boom" ∧
    sessionStart.participants.length = 0 ∧
    (process_message sessionStart oracleReplyFail "I am Alice" "Alice"
      "id-alice").session.participants.length = 1 := by
  exact ⟨rfl, rfl, rfl⟩

/-- C2, amended: on a propagated oracle transport error, the history is
extended by exactly the step-1 USER_INPUT message, the active-user set
reflects only the step-1 insert, and `current_plan`, `finalized_plan` and
`state` are untouched; the roster is either unchanged (extraction failed) or
reflects exactly the completed extraction's upsert (a later call failed) — no
mutation from the in-progress call itself is visible. -/
theorem hangout_C2_amended (s : Session) (o : TurnOracle) (m un uid e : String)
    (h : (process_message s o m un uid).result = .error e) :
    (process_message s o m un uid).session.conversation_history =
      s.conversation_history ++ [userMessageOf o m un uid] ∧
    (process_message s o m un uid).session.active_users =
      (s.add_message (userMessageOf o m un uid)).active_users ∧
    (process_message s o m un uid).session.current_plan = s.current_plan ∧
    (process_message s o m un uid).session.finalized_plan = s.finalized_plan ∧
    (process_message s o m un uid).session.state = s.state ∧
    ((process_message s o m un uid).session.participants = s.participants ∨
      ∃ p, orch_extract o un = .ok (some p) ∧
        (process_message s o m un uid).session.participants =
          (addParticipantList s.participants p).1) := by
  unfold process_message at h ⊢
  cases hx : orch_extract o un with
  | error e2 => exact ⟨rfl, rfl, rfl, rfl, rfl, Or.inl rfl⟩
  | ok popt =>
    cases popt with
    | none =>
      cases hr : o.reply with
      | error e2 => exact ⟨rfl, rfl, rfl, rfl, rfl, Or.inl rfl⟩
      | ok r0 =>
        rw [hx, hr] at h
        simp at h
    | some p =>
      cases hr : o.reply with
      | error e2 => exact ⟨rfl, rfl, rfl, rfl, rfl, Or.inr ⟨p, rfl, rfl⟩⟩
      | ok r0 =>
        rw [hx, hr] at h
        dsimp only at h ⊢
        by_cases hg : ((some p : Option Participant).isSome &&
            decide (2 ≤ ((s.add_message (userMessageOf o m un uid)).add_participant
              p).1.participants.length)) = true
        · rw [if_pos hg] at h ⊢
          split at h
          · exact ⟨rfl, rfl, rfl, rfl, rfl, Or.inr ⟨p, rfl, rfl⟩⟩
          · dsimp only at h
            exact Except.noConfusion h
        · rw [if_neg hg] at h
          split at h
          · rename_i heq
            exact absurd heq (by simp)
          · dsimp only at h
            exact Except.noConfusion h

/-- C2, witness: at the concrete failing turn — extraction succeeded, then the
conversational reply raised — the amended theorem yields that the plans are
untouched and the roster equals the completed upsert. -/
theorem hangout_C2_witness :
    (process_message sessionStart oracleReplyFail "I am Alice" "Alice"
      "id-alice").session.current_plan = sessionStart.current_plan ∧
    ((process_message sessionStart oracleReplyFail "I am Alice" "Alice"
        "id-alice").session.participants = sessionStart.participants ∨
      ∃ p, orch_extract oracleReplyFail "Alice" = .ok (some p) ∧
        (process_message sessionStart oracleReplyFail "I am Alice" "Alice"
            "id-alice").session.participants =
          (addParticipantList sessionStart.participants p).1) := by
  have h := hangout_C2_amended sessionStart oracleReplyFail "I am Alice" "Alice"
    "id-alice" "boom" rfl
  exact ⟨h.2.2.1, h.2.2.2.2.2⟩

/-- C3, counterexample: a plan-generation response containing no JSON object
does NOT yield "no plan produced": the client substitutes a fallback dict with
the non-empty venue string "Unable to generate recommendation", so a new plan
is installed (from none), the plan-change return is non-absent, and when a
version-1 plan already existed the version increments to 2. -/
theorem hangout_C3_counterexample :
    sessionTwo.current_plan = none ∧
    (process_message sessionTwo oracleBadPlan "Carol joining" "Carol"
        "id-carol").session.current_plan.map HangoutPlan.venue_recommendation =
      some (some "Unable to generate recommendation") ∧
    planProduced (process_message sessionTwo oracleBadPlan "Carol joining" "Carol"
      "id-carol") = true ∧
    (process_message sessionTwoPlanned oracleBadPlan "Carol joining" "Carol"
        "id-carol").session.current_plan.map HangoutPlan.version = some 2 := by
  exact ⟨rfl, rfl, rfl, rfl⟩

/-- C3, amended: only a plan-generation response that parses to a JSON object
without a truthy venue_recommendation yields no plan — then `current_plan` is
left exactly as it was and the returned plan-change is none; a response with
no JSON object, or one whose parse raises, is converted by the adapter into a
fallback dict whose venue_recommendation is a non-empty error string, which
does produce a plan revision when generation is attempted. -/
theorem hangout_C3_amended :
    (∀ (s : Session) (o : TurnOracle) (m un uid : String) (d : PlanDict),
      o.plan = .ok (.parsed d) → d.venue_recommendation.truthy = false →
        (process_message s o m un uid).session.current_plan = s.current_plan ∧
        planProduced (process_message s o m un uid) = false) ∧
    (∀ out : ProcOut, planProduced out = false →
      ∀ r pu, out.result = .ok (r, pu) → pu = none) ∧
    (∀ c : String,
      (generate_hangout_plan (.noJson c)).venue_recommendation.truthy = true ∧
      (generate_hangout_plan (.parseError c)).venue_recommendation.truthy = true) := by
  refine ⟨?_, ?_, fun c => ⟨rfl, rfl⟩⟩
  · intro s o m un uid d hpl ht
    unfold process_message
    cases hx : orch_extract o un with
    | error e => exact ⟨rfl, rfl⟩
    | ok popt =>
      cases popt with
      | none =>
        cases hr : o.reply with
        | error e => exact ⟨rfl, rfl⟩
        | ok r0 =>
          constructor
          · simp [add_message_current_plan, finalizeStep_fst_current_plan]
          · rfl
      | some p =>
        cases hr : o.reply with
        | error e => exact ⟨rfl, rfl⟩
        | ok r0 =>
          dsimp only
          by_cases hg : ((some p : Option Participant).isSome &&
              decide (2 ≤ ((s.add_message (userMessageOf o m un uid)).add_participant
                p).1.participants.length)) = true
          · have hlen : ¬ (((s.add_message (userMessageOf o m un uid)).add_participant
                p).1.participants.length < 2) := by
              simp only [Option.isSome_some, Bool.true_and, decide_eq_true_eq] at hg
              omega
            have hplan : orch_generate_plan
                ((s.add_message (userMessageOf o m un uid)).add_participant p).1 o =
                (.ok none, true) := by
              unfold orch_generate_plan
              rw [if_neg hlen, hpl]
              dsimp only
              rw [if_pos (by simp [generate_hangout_plan, ht])]
            rw [if_pos hg, hplan]
            constructor
            · simp [add_message_current_plan, add_participant_fst_current_plan,
                finalizeStep_fst_current_plan]
            · rfl
          · rw [if_neg hg]
            constructor
            · simp [add_message_current_plan, add_participant_fst_current_plan,
                finalizeStep_fst_current_plan]
            · rfl
  · intro out hp r pu h
    cases pu with
    | none => rfl
    | some x =>
      unfold planProduced at hp
      rw [h] at hp
      dsimp only at hp
      exact Bool.noConfusion hp

/-- C3, witness: with two participants, a successful extraction and a plan
response parsing to a JSON object without a venue_recommendation, the theorem
yields that no plan is installed. -/
theorem hangout_C3_witness :
    (process_message sessionTwo oracleEmptyParsedPlan "hi" "Dana"
      "id-d").session.current_plan = none := by
  have h := hangout_C3_amended.1 sessionTwo oracleEmptyParsedPlan "hi" "Dana" "id-d" {} rfl rfl
  exact h.1.trans rfl

/-- C4: starting from a roster with pairwise-distinct case-insensitive names,
every run keeps the names pairwise distinct (at most one participant per
case-insensitive name at all times); each processed message preserves every
existing name key (participants are never deleted); and when extraction yields
a participant, that exact record — field for field — is the unique roster
entry under its case-insensitive name, with no merging of earlier values. -/
theorem hangout_C4 (s : Session) (h : rosterKeysOK s.participants) :
    (∀ ts, rosterKeysOK (runTurns s ts).participants) ∧
    (∀ (o : TurnOracle) (m un uid : String),
      rosterKeysOK (process_message s o m un uid).session.participants ∧
      (∀ q ∈ s.participants, ∃ q2 ∈ (process_message s o m un uid).session.participants,
        pyLower q2.name = pyLower q.name) ∧
      (∀ p, orch_extract o un = .ok (some p) →
        p ∈ (process_message s o m un uid).session.participants ∧
        ∀ q ∈ (process_message s o m un uid).session.participants,
          pyLower q.name = pyLower p.name → q = p)) := by
  refine ⟨fun ts => runTurns_rosterOK ts s h,
    fun o m un uid => ⟨process_message_rosterOK s o m un uid h, ?_, ?_⟩⟩
  · intro q hq
    rcases process_message_participants s o m un uid with hp | ⟨p, _, hp⟩
    · exact ⟨q, by rw [hp]; exact hq, rfl⟩
    · rw [hp]
      exact apl_keys s.participants p q hq
  · intro p hx
    have hp := process_message_participants_some s o m un uid p hx
    rw [hp]
    exact ⟨apl_self_mem _ _, apl_unique s.participants p h⟩

/-- C4, witness: the concrete three-turn run from the empty roster keeps the
case-insensitive names pairwise distinct. -/
theorem hangout_C4_witness :
    rosterKeysOK (runTurns sessionStart [turnAlice, turnBobFinalize, turnCarolFinalize]).participants :=
  (hangout_C4 sessionStart List.Pairwise.nil).1 [turnAlice, turnBobFinalize, turnCarolFinalize]

/-- C5: starting from a session with no current plan, after any sequence of
turns the current plan's version equals the number of turns that produced a
plan (so the Nth generated plan has version N, the first has version 1); and
for every single step, an unsuccessful regeneration leaves `current_plan`
exactly unchanged while a successful one installs a plan whose version is one
more than the previous current plan's version. -/
theorem hangout_C5 (s : Session) (h : s.current_plan = none) :
    (∀ ts, versionOf (runTurnsCount s ts).1.current_plan = (runTurnsCount s ts).2) ∧
    (∀ (s2 : Session) (o : TurnOracle) (m un uid : String),
      (planProduced (process_message s2 o m un uid) = false →
        (process_message s2 o m un uid).session.current_plan = s2.current_plan) ∧
      (planProduced (process_message s2 o m un uid) = true →
        ∃ np, (process_message s2 o m un uid).session.current_plan = some np ∧
          np.version = versionOf s2.current_plan + 1)) := by
  constructor
  · intro ts
    have hv := runTurnsCount_version ts s
    rw [h] at hv
    simpa [versionOf] using hv
  · intro s2 o m un uid
    exact process_message_plan_step s2 o m un uid

/-- C5, witness: on the concrete three-turn run two plans are produced and the
final current plan's version equals that count. -/
theorem hangout_C5_witness :
    versionOf (runTurnsCount sessionStart
        [turnAlice, turnBobFinalize, turnCarolFinalize]).1.current_plan =
      (runTurnsCount sessionStart [turnAlice, turnBobFinalize, turnCarolFinalize]).2 :=
  (hangout_C5 sessionStart rfl).1 [turnAlice, turnBobFinalize, turnCarolFinalize]

/-- C6: whenever a processed message leaves the roster with fewer than 2
participants, the plan-generation adapter was not invoked during that message
and `current_plan` is exactly unchanged; and along any run started with no
current plan whose final roster stays below 2, `current_plan` stays none. -/
theorem hangout_C6 (s : Session) :
    (∀ (o : TurnOracle) (m un uid : String),
      (process_message s o m un uid).session.participants.length < 2 →
        (process_message s o m un uid).planGenInvoked = false ∧
        (process_message s o m un uid).session.current_plan = s.current_plan) ∧
    (∀ ts, s.current_plan = none →
      (runTurns s ts).participants.length < 2 →
      (runTurns s ts).current_plan = none) := by
  exact ⟨fun o m un uid hlen => process_message_small s o m un uid hlen,
    fun ts h1 h2 => runTurns_below ts s h1 h2⟩

/-- C6, witness: Alice's first message leaves a one-participant roster, the
plan adapter is not invoked, and the current plan stays none. -/
theorem hangout_C6_witness :
    (process_message sessionStart oracleAlice "I am Alice from Brooklyn, I like sushi"
      "Alice" "id-alice").planGenInvoked = false ∧
    (process_message sessionStart oracleAlice "I am Alice from Brooklyn, I like sushi"
      "Alice" "id-alice").session.current_plan = sessionStart.current_plan ∧
    (runTurns sessionStart [turnAlice]).current_plan = none := by
  have hlen1 : (process_message sessionStart oracleAlice
      "I am Alice from Brooklyn, I like sushi" "Alice"
      "id-alice").session.participants.length < 2 := by decide
  have hlen2 : (runTurns sessionStart [turnAlice]).participants.length < 2 := by decide
  have h1 := (hangout_C6 sessionStart).1 oracleAlice "I am Alice from Brooklyn, I like sushi"
    "Alice" "id-alice" hlen1
  have h2 := (hangout_C6 sessionStart).2 [turnAlice] rfl hlen2
  exact ⟨h1.1, h1.2, h2⟩

/-- C7: the session projection's history has length at most 20, equals the map
of the last-20 truncation of the full history, that truncation is a suffix of
the history (the most recent messages in original insertion order) of length
min 20 (history length), and the projection leaves the session unchanged. -/
theorem hangout_C7 (s : Session) :
    (get_session_state s).1.conversation_history.length ≤ 20 ∧
    (get_session_state s).1.conversation_history =
      (takeLast 20 s.conversation_history).map Message.to_dict ∧
    s.conversation_history.take (s.conversation_history.length - 20) ++
      takeLast 20 s.conversation_history = s.conversation_history ∧
    (takeLast 20 s.conversation_history).length = min 20 s.conversation_history.length ∧
    (get_session_state s).2 = s := by
  refine ⟨?_, rfl, takeLast_suffix 20 _, takeLast_length 20 _, rfl⟩
  show ((takeLast 20 s.conversation_history).map Message.to_dict).length ≤ 20
  rw [List.length_map, takeLast_length]
  exact Nat.min_le_left _ _

/-- C8: the finalization trigger fires exactly when some phrase of the fixed
trigger set occurs as a contiguous substring of the lowercased message; in
particular the message about being undecided fires the trigger because
"decide" occurs inside "undecided". -/
theorem hangout_C8 :
    (∀ m : String, should_finalize_plan m = true ↔
      ∃ t ∈ finalization_triggers, ∃ pre post : List Char,
        (pyLower m).data = pre ++ t.data ++ post) ∧
    should_finalize_plan "I\x27m still undecided about food" = true := by
  constructor
  · intro m
    unfold should_finalize_plan strIn
    rw [List.any_eq_true]
    constructor
    · rintro ⟨t, ht, hc⟩
      exact ⟨t, ht, (containsL_iff _ _).mp hc⟩
    · rintro ⟨t, ht, hdec⟩
      exact ⟨t, ht, (containsL_iff _ _).mpr hdec⟩
  · decide

/-- C9: evaluation at the failing input. Alice submits a message with display
name "Alice" and stable identifier "user-123"; the stored participant record
carries user_identifier "Alice" (the display name), not the stable identifier
the claim requires, and consequently `get_active_participants` — which
compares participant user_identifiers against the active-user set holding
"user-123" and "system" — returns the empty list. -/
theorem hangout_C9_bug :
    (process_message sessionStart oracleAlice "Hi I am Alice from Brooklyn, I like sushi"
        "Alice" "user-123").session.participants.map Participant.user_identifier = ["Alice"] ∧
    "user-123" ∈ (process_message sessionStart oracleAlice
      "Hi I am Alice from Brooklyn, I like sushi" "Alice" "user-123").session.active_users ∧
    (process_message sessionStart oracleAlice "Hi I am Alice from Brooklyn, I like sushi"
        "Alice" "user-123").session.get_active_participants = [] ∧
    "Alice" ≠ "user-123" := by
  refine ⟨rfl, by decide, by decide, by decide⟩

/-- C10: after every completed `process_message` call (one whose result is not
a propagated error), the session's active-user set contains "system", because
the final step appends the AGENT_RESPONSE message with user_identifier
"system" and `add_message` records every non-empty identifier. -/
theorem hangout_C10 (s : Session) (o : TurnOracle) (m un uid : String)
    (h : (process_message s o m un uid).result.isOk = true) :
    "system" ∈ (process_message s o m un uid).session.active_users := by
  unfold process_message at h ⊢
  cases hx : orch_extract o un with
  | error e =>
    rw [hx] at h
    simp [Except.isOk, Except.toBool] at h
  | ok popt =>
    cases popt with
    | none =>
      cases hr : o.reply with
      | error e =>
        rw [hx, hr] at h
        simp [Except.isOk, Except.toBool] at h
      | ok r0 =>
        apply add_message_active_mem
        show ("system" : String) ≠ ""
        decide
    | some p =>
      cases hr : o.reply with
      | error e =>
        rw [hx, hr] at h
        simp [Except.isOk, Except.toBool] at h
      | ok r0 =>
        rw [hx, hr] at h
        dsimp only at h ⊢
        by_cases hg : ((some p : Option Participant).isSome &&
            decide (2 ≤ ((s.add_message (userMessageOf o m un uid)).add_participant
              p).1.participants.length)) = true
        · rw [if_pos hg] at h ⊢
          split at h
          · dsimp only [Except.isOk, Except.toBool] at h
            exact Bool.noConfusion h
          · apply add_message_active_mem
            show ("system" : String) ≠ ""
            decide
        · rw [if_neg hg] at h ⊢
          apply add_message_active_mem
          show ("system" : String) ≠ ""
          decide

/-- C10, witness: a completed concrete call records "system" as active. -/
theorem hangout_C10_witness :
    "system" ∈ (process_message sessionStart oracleAlice "hello" "Alice"
      "id-alice").session.active_users :=
  hangout_C10 sessionStart oracleAlice "hello" "Alice" "id-alice" rfl

end Hangout
